import Mathlib

/-!
Shallow embedding of the kubewatch controller core
(`pkg/controller/controller.go`) and of the configuration global-event-list
construction (`config/config.go`), with theorems about its queueing,
classification, retry and dispatch behaviour.

Modelling conventions:
* Go strings are `String`, Go bools are `Bool`.
* Times are integer (nanosecond) timestamps.  For `time.Time` values `a`, `b`
  the Go test `a.Sub(b).Seconds() > 0` holds iff `a - b > 0` over the
  integers, because the `int64 → float64` conversion of a nanosecond count
  preserves its sign exactly; so the comparison is embedded as an `Int`
  subtraction.
* The client-go work queue (`workqueue.Type`) is modelled with its three
  components `queue`/`dirty`/`processing`; the two sets are duplicate-free
  lists and the queue is a FIFO list.
* Handler invocations are recorded as a list of calls, each paired with the
  handler's success/failure result, so that results the controller discards
  remain visible in the model.
* `strings.Split(key, "/")[0]` is embedded as the prefix of the string before
  the first `'/'` character (`firstSegment`), which is exactly the first
  element `strings.Split` returns for separator `"/"`.
-/

namespace Kubewatch

/-- Queue item `Event` (controller.go lines 59–64).  The Go field `namespace`
is called `nspace` here because `namespace` is a Lean keyword. -/
structure Event where
  key : String
  eventType : String
  nspace : String
  resourceType : String
  deriving DecidableEq, Repr

/-- client-go `workqueue.Type`: a FIFO `queue`, the `dirty` set of items
pending (re-)processing, and the `processing` set of in-flight items. -/
structure WorkQueue where
  queue : List Event
  dirty : List Event
  processing : List Event
  deriving DecidableEq, Repr

/-- the freshly constructed queue (workqueue.NewRateLimitingQueue). -/
def WorkQueue.empty : WorkQueue := ⟨[], [], []⟩

/-- client-go `workqueue.Type.Add`: a no-op when the item is already dirty;
otherwise the item is marked dirty, and is appended to the FIFO only when it
is not currently being processed. -/
def WorkQueue.add (q : WorkQueue) (item : Event) : WorkQueue :=
  if item ∈ q.dirty then q
  else if item ∈ q.processing then { q with dirty := q.dirty ++ [item] }
  else { q with dirty := q.dirty ++ [item], queue := q.queue ++ [item] }

/-- client-go `workqueue.Type.Get`: pops the FIFO head (blocking, modelled as
`none`, when empty), marks it processing and clears its dirty mark. -/
def WorkQueue.get (q : WorkQueue) : Option Event × WorkQueue :=
  match q.queue with
  | [] => (none, q)
  | item :: rest =>
      (some item,
        { queue := rest,
          dirty := q.dirty.erase item,
          processing := if item ∈ q.processing then q.processing else q.processing ++ [item] })

/-- client-go `workqueue.Type.Done`: clears the processing mark and, when the
item went dirty again while in flight, re-appends it to the FIFO. -/
def WorkQueue.done (q : WorkQueue) (item : Event) : WorkQueue :=
  if item ∈ q.dirty then
    { q with processing := q.processing.erase item, queue := q.queue ++ [item] }
  else
    { q with processing := q.processing.erase item }

/-- the update notice enqueued for key `default/a` by the informer's
UpdateFunc (controller.go 398–406): namespace is left empty. -/
def evUpdA : Event := ⟨"default/a", "update", "", "pod"⟩

/-- the delete notice enqueued for key `default/a` by the informer's
DeleteFunc (controller.go 407–416): namespace taken from the object. -/
def evDelA : Event := ⟨"default/a", "delete", "default", "pod"⟩

/-- C1 counterexample: after `add(keyA, Update)` then `add(keyA, Delete)` with
no intervening `get`, the queue holds TWO pending items for key
`default/a`, and the next `get` yields the Update notice, not the Delete
one: the work queue deduplicates by the whole `Event` value, whose
`eventType` fields differ, so no per-key coalescing happens. -/
theorem C1_per_key_coalescing_counterexample :
    ((WorkQueue.empty.add evUpdA).add evDelA).queue = [evUpdA, evDelA] ∧
    (((WorkQueue.empty.add evUpdA).add evDelA).get).1 = some evUpdA ∧
    evUpdA.eventType = "update" := by
  decide

/-- C1 amended: coalescing is by the whole notice value, not by ObjectKey: a
second `add` of an identical pending notice collapses into the existing entry
(`add` is idempotent), while `add(keyA, Update)` followed by `add(keyA,
Delete)` enqueues two distinct items and the two subsequent `get`s yield the
Update first and then the Delete (FIFO, not last-write-wins). -/
theorem C1_coalescing_by_value :
    (∀ (q : WorkQueue) (e : Event), (q.add e).add e = q.add e) ∧
    ((WorkQueue.empty.add evUpdA).add evDelA).queue = [evUpdA, evDelA] ∧
    ((((WorkQueue.empty.add evUpdA).add evDelA).get).2.get).1 = some evDelA := by
  refine ⟨?_, by decide, by decide⟩
  intro q e
  by_cases h1 : e ∈ q.dirty
  · simp [WorkQueue.add, h1]
  · by_cases h2 : e ∈ q.processing
    · simp [WorkQueue.add, h1, h2]
    · simp [WorkQueue.add, h1, h2]

/-- `maxRetries` (controller.go line 48). -/
def maxRetries : Nat := 5

/-- what `processNextItem` does with the queue item after one processing
attempt (controller.go 471–483). -/
inductive RetryAction where
  /-- success path: `queue.Forget(item)`, resetting the rate-limit counter. -/
  | forget
  /-- failure with `NumRequeues < maxRetries`: `queue.AddRateLimited(item)`. -/
  | addRateLimited
  /-- failure with retries exhausted: `queue.Forget(item)` plus
  `utilruntime.HandleError(err)` — the error is surfaced and the item dropped. -/
  | dropAndSurface
  deriving DecidableEq, Repr

/-- branch taken by `processNextItem` on the outcome of `processItem`
(controller.go 471–483): `failed` is `err != nil`, `numRequeues` is
`queue.NumRequeues(item)` at the time of the check. -/
def retryDecision (numRequeues : Nat) (failed : Bool) : RetryAction :=
  if failed = false then RetryAction.forget
  else if numRequeues < maxRetries then RetryAction.addRateLimited
  else RetryAction.dropAndSurface

/-- per-item failure counter of the default rate limiter
(`workqueue.DefaultControllerRateLimiter`): `AddRateLimited` increments it,
`Forget` resets it (`Forget` is called on both the success path and the
exhausted path). -/
def rateLimiterCounter (numRequeues : Nat) : RetryAction → Nat
  | RetryAction.addRateLimited => numRequeues + 1
  | RetryAction.forget => 0
  | RetryAction.dropAndSurface => 0

/-- drain-loop iterations of `processNextItem` for one item whose
`processItem` fails on every attempt, starting from the given `NumRequeues`
value: each `addRateLimited` outcome re-enqueues the item (one more attempt,
counter incremented by the rate limiter); any other outcome ends the loop for
this item — it is forgotten and, absent a new `Add`, never dequeued again.
`fuel` bounds the recursion; `maxRetries` fuel suffices from counter `0`.
Returns (total processing attempts, `AddRateLimited` re-enqueues). -/
def failingLoop : Nat → Nat → Nat × Nat
  | 0, _ => (1, 0)
  | fuel + 1, numRequeues =>
      match retryDecision numRequeues true with
      | RetryAction.addRateLimited =>
          let r := failingLoop fuel (rateLimiterCounter numRequeues RetryAction.addRateLimited)
          (r.1 + 1, r.2 + 1)
      | _ => (1, 0)

/-- C3: an always-failing item is processed 6 times in total, i.e. it is
re-enqueued via `AddRateLimited` exactly `maxRetries = 5` additional times
(exactly while `NumRequeues < 5`), after which the decision is
`dropAndSurface` — `Forget` plus `HandleError`, so the item is dropped, the
error surfaced, and with no new mutation it is never retried again (the loop
ends); and a successful attempt always resets the retry counter via `forget`. -/
theorem C3_retry_bound :
    failingLoop maxRetries 0 = (6, 5) ∧
    (∀ n, retryDecision n true = RetryAction.addRateLimited ↔ n < maxRetries) ∧
    retryDecision maxRetries true = RetryAction.dropAndSurface ∧
    (∀ n, retryDecision n false = RetryAction.forget ∧
      rateLimiterCounter n (retryDecision n false) = 0) := by
  refine ⟨by decide, ?_, by decide, ?_⟩
  · intro n
    by_cases h : n < maxRetries <;> simp [retryDecision, h]
  · intro n
    simp [retryDecision, rateLimiterCounter]

/-- object metadata as used by `processItem`: creation timestamp (integer
nanoseconds), namespace and name; the watched object is modelled by its
metadata, which is the only part `processItem` reads. -/
structure ObjectMeta where
  creationTimestampNs : Int
  nspace : String
  name : String
  deriving DecidableEq, Repr

/-- result of `informer.GetIndexer().GetByKey(key)`: the stored object (or
`none` when absent — the boolean `exists` flag of the Go call is represented
by `obj.isSome` and is discarded by `processItem` just as the source discards
it) and the error return. -/
structure StoreResult where
  obj : Option ObjectMeta
  err : Option String
  deriving Repr

/-- Modelled from the spec: `utils.GetObjectMetaData` (package
`pkg/utils`, not under `src/`) extracts the object's metadata; on a `nil`
object the Go type switch matches no case and the zero `ObjectMeta` is
returned (spec 4.3: the namespace comes from "the object's last-known
metadata"; zero metadata has zero creation time and empty namespace). -/
def getObjectMetaData : Option ObjectMeta → ObjectMeta
  | some m => m
  | none => ⟨0, "", ""⟩

/-- sink-facing envelope `event.Event` built by `processItem`
(controller.go 524–528 and 536–540). -/
structure KbEvent where
  kind : String
  name : String
  namespaceField : String
  deriving DecidableEq, Repr

/-- one invocation of the external handler capability, as performed by
`processItem`. -/
inductive HandlerCall where
  | created (obj : Option ObjectMeta)
  | updated (obj : Option ObjectMeta) (ev : KbEvent)
  | deleted (ev : KbEvent)
  deriving DecidableEq, Repr

/-- Modelled from the spec: the handler capability (`pkg/handlers`, not under
`src/`) has the three fallible operations `onCreated`/`onUpdated`/`onDeleted`
(spec 6, "each fallible"); `true` is success, `false` failure. -/
structure Handler where
  objectCreated : Option ObjectMeta → Bool
  objectUpdated : Option ObjectMeta → KbEvent → Bool
  objectDeleted : KbEvent → Bool

/-- filter maps `global`/`create`/`update`/`delete` (controller.go 53–56),
as loaded by `loadEventConfig`; a `nil` Go map is the empty list. -/
structure FilterSets where
  global : List String
  create : List String
  update : List String
  delete : List String
  deriving DecidableEq, Repr

/-- `strings.Split(s, "/")[0]`: the prefix of `s` before the first `'/'`
(the whole of `s` when it contains no `'/'`). -/
def firstSegment (s : String) : String :=
  String.mk (s.toList.takeWhile (fun c => c ≠ '/'))

/-- the namespace fallback of `processItem` (controller.go 502–505): when the
notice's namespace field is empty it is replaced by the first `/`-separated
segment of the key. -/
def resolvedNamespace (e : Event) : String :=
  if e.nspace = "" then firstSegment e.key else e.nspace

/-- outcome of one `processItem` call: the handler invocations it performed
(each with the result the handler returned, which the source discards) and
the error `processItem` returns. -/
structure ProcessResult where
  calls : List (HandlerCall × Bool)
  err : Option String
  deriving Repr

/-- `processItem` (controller.go 494–549): fetch the object from the store
(only a store *error* aborts with an error; the `exists` flag is discarded),
resolve the namespace fallback, then switch on the event type: `create`
dispatches `ObjectCreated(obj)` only when the object's creation time is later
than `serverStartTime` and the resource type is in the `global` or `create`
set; `update`/`delete` build the envelope and dispatch when the resource type
is in `global` or the matching directional set; every path except the store
error returns `nil`. -/
def processItem (fs : FilterSets) (serverStartTime : Int) (h : Handler)
    (store : String → StoreResult) (e : Event) : ProcessResult :=
  match (store e.key).err with
  | some msg =>
      ⟨[], some ("Error fetching object with key " ++ e.key ++ " from store: " ++ msg)⟩
  | none =>
      let obj := (store e.key).obj
      let objectMeta := getObjectMetaData obj
      let nspace := resolvedNamespace e
      if e.eventType = "create" then
        if objectMeta.creationTimestampNs - serverStartTime > 0 then
          if e.resourceType ∈ fs.global then
            ⟨[(HandlerCall.created obj, h.objectCreated obj)], none⟩
          else if e.resourceType ∈ fs.create then
            ⟨[(HandlerCall.created obj, h.objectCreated obj)], none⟩
          else ⟨[], none⟩
        else ⟨[], none⟩
      else if e.eventType = "update" then
        let kbEvent : KbEvent := ⟨e.resourceType, e.key, nspace⟩
        if e.resourceType ∈ fs.global then
          ⟨[(HandlerCall.updated obj kbEvent, h.objectUpdated obj kbEvent)], none⟩
        else if e.resourceType ∈ fs.update then
          ⟨[(HandlerCall.updated obj kbEvent, h.objectUpdated obj kbEvent)], none⟩
        else ⟨[], none⟩
      else if e.eventType = "delete" then
        let kbEvent : KbEvent := ⟨e.resourceType, e.key, nspace⟩
        if e.resourceType ∈ fs.global then
          ⟨[(HandlerCall.deleted kbEvent, h.objectDeleted kbEvent)], none⟩
        else if e.resourceType ∈ fs.delete then
          ⟨[(HandlerCall.deleted kbEvent, h.objectDeleted kbEvent)], none⟩
        else ⟨[], none⟩
      else ⟨[], none⟩

/-- a handler whose three operations all succeed. -/
def okHandler : Handler := ⟨fun _ => true, fun _ _ => true, fun _ => true⟩

/-- a handler whose three operations all fail. -/
def alwaysFailHandler : Handler := ⟨fun _ => false, fun _ _ => false, fun _ => false⟩

/-- a stored pod object named `a` in namespace `default`, created at time 15. -/
def podMeta : ObjectMeta := ⟨15, "default", "a"⟩

/-- a store in which every key resolves to `podMeta` without error. -/
def podStore : String → StoreResult := fun _ => ⟨some podMeta, none⟩

/-- a store in which every lookup misses: object absent, no error
(`GetByKey` returns `nil, false, nil`). -/
def missStore : String → StoreResult := fun _ => ⟨none, none⟩

/-- a store in which every lookup fails with an error. -/
def errStore : String → StoreResult := fun _ => ⟨none, some "boom"⟩

/-- filter sets with `pod` in `Global` and all directional sets empty. -/
def fsPodGlobal : FilterSets := ⟨["pod"], [], [], []⟩

/-- a create notice for key `default/a` (namespace left empty by AddFunc). -/
def evCreateA : Event := ⟨"default/a", "create", "", "pod"⟩

/-- C2: startup suppression.  For a create notice processed against
`serverStartTime = T`: when the fetched object's creation time is at most `T`
no handler is invoked (never Forward); when the store lookup succeeds, the
creation time is strictly later than `T`, and the resource type is in the
`global` or `create` filter set, `ObjectCreated` is invoked with the raw
stored object (always Forward). -/
theorem C2_startup_suppression (fs : FilterSets) (T : Int) (h : Handler)
    (store : String → StoreResult) (e : Event) (hc : e.eventType = "create") :
    ((getObjectMetaData (store e.key).obj).creationTimestampNs ≤ T →
      (processItem fs T h store e).calls = []) ∧
    ((store e.key).err = none →
      T < (getObjectMetaData (store e.key).obj).creationTimestampNs →
      (e.resourceType ∈ fs.global ∨ e.resourceType ∈ fs.create) →
      (processItem fs T h store e).calls =
        [(HandlerCall.created (store e.key).obj,
          h.objectCreated (store e.key).obj)]) := by
  constructor
  · intro hle
    cases hs : (store e.key).err with
    | some msg => simp [processItem, hs]
    | none =>
        have hng : ¬ ((getObjectMetaData (store e.key).obj).creationTimestampNs - T > 0) := by
          omega
        simp [processItem, hs, hc, hng]
  · intro hs hlt hmem
    have hpos : (getObjectMetaData (store e.key).obj).creationTimestampNs - T > 0 := by
      omega
    by_cases hg : e.resourceType ∈ fs.global
    · simp [processItem, hs, hc, hpos, hg]
    · have hcr : e.resourceType ∈ fs.create := hmem.resolve_left hg
      simp [processItem, hs, hc, hpos, hg, hcr]

/-- C2 witness: with `serverStartTime = 10` the pod created at 15 is
forwarded to `ObjectCreated`; with `serverStartTime = 20` it is suppressed. -/
theorem C2_startup_suppression_witness :
    (processItem fsPodGlobal 10 okHandler podStore evCreateA).calls =
      [(HandlerCall.created (some podMeta), true)] ∧
    (processItem fsPodGlobal 20 okHandler podStore evCreateA).calls = [] := by
  constructor
  · have h2 := (C2_startup_suppression fsPodGlobal 10 okHandler podStore evCreateA rfl).2
      rfl (by decide) (Or.inl (by decide))
    exact h2.trans (by decide)
  · exact (C2_startup_suppression fsPodGlobal 20 okHandler podStore evCreateA rfl).1 (by decide)

/-- C8: global membership short-circuits the directional checks.  Whatever
the `create`/`update`/`delete` filter sets contain, a resource type in
`global` is forwarded: `update` and `delete` notices dispatch the matching
handler operation with the envelope built from the resolved namespace, and a
`create` notice dispatches `ObjectCreated` subject only to the
startup-suppression time check. -/
theorem C8_global_short_circuit (fs : FilterSets) (T : Int) (h : Handler)
    (store : String → StoreResult) (e : Event)
    (hs : (store e.key).err = none) (hg : e.resourceType ∈ fs.global) :
    (e.eventType = "update" →
      (processItem fs T h store e).calls =
        [(HandlerCall.updated (store e.key).obj ⟨e.resourceType, e.key, resolvedNamespace e⟩,
          h.objectUpdated (store e.key).obj ⟨e.resourceType, e.key, resolvedNamespace e⟩)]) ∧
    (e.eventType = "delete" →
      (processItem fs T h store e).calls =
        [(HandlerCall.deleted ⟨e.resourceType, e.key, resolvedNamespace e⟩,
          h.objectDeleted ⟨e.resourceType, e.key, resolvedNamespace e⟩)]) ∧
    (e.eventType = "create" →
      T < (getObjectMetaData (store e.key).obj).creationTimestampNs →
      (processItem fs T h store e).calls =
        [(HandlerCall.created (store e.key).obj,
          h.objectCreated (store e.key).obj)]) := by
  refine ⟨?_, ?_, ?_⟩
  · intro hu
    simp [processItem, hs, hu, hg]
  · intro hd
    simp [processItem, hs, hd, hg]
  · intro hc hlt
    have hpos : (getObjectMetaData (store e.key).obj).creationTimestampNs - T > 0 := by
      omega
    simp [processItem, hs, hc, hpos, hg]

/-- C8 witness: with `pod` in `global` and all directional sets empty, an
update, a delete, and a fresh create for a pod are all forwarded. -/
theorem C8_global_short_circuit_witness :
    (processItem fsPodGlobal 10 okHandler podStore evUpdA).calls =
      [(HandlerCall.updated (some podMeta) ⟨"pod", "default/a", "default"⟩, true)] ∧
    (processItem fsPodGlobal 10 okHandler podStore evDelA).calls =
      [(HandlerCall.deleted ⟨"pod", "default/a", "default"⟩, true)] ∧
    (processItem fsPodGlobal 10 okHandler podStore evCreateA).calls =
      [(HandlerCall.created (some podMeta), true)] := by
  refine ⟨?_, ?_, ?_⟩
  · have h1 := (C8_global_short_circuit fsPodGlobal 10 okHandler podStore evUpdA rfl
      (by decide)).1 rfl
    exact h1.trans (by decide)
  · have h1 := (C8_global_short_circuit fsPodGlobal 10 okHandler podStore evDelA rfl
      (by decide)).2.1 rfl
    exact h1.trans (by decide)
  · have h1 := (C8_global_short_circuit fsPodGlobal 10 okHandler podStore evCreateA rfl
      (by decide)).2.2 rfl (by decide)
    exact h1.trans (by decide)

/-- C4 counterexample: a forwarded update whose handler reports failure still
yields `err = nil` from `processItem` — the handler's result is recorded as
`false` in the call list but discarded by the controller, so `processNextItem`
takes the success branch (`forget`, no retry) rather than retrying. -/
theorem C4_handler_failure_counterexample :
    (processItem fsPodGlobal 0 alwaysFailHandler podStore evUpdA).calls =
      [(HandlerCall.updated (some podMeta) ⟨"pod", "default/a", "default"⟩, false)] ∧
    (processItem fsPodGlobal 0 alwaysFailHandler podStore evUpdA).err = none ∧
    retryDecision 0 false = RetryAction.forget := by
  decide

/-- C4 amended: `processItem`'s returned error is independent of the handler
(its results are discarded), and whenever the store lookup does not error,
`processItem` returns `nil` — handler failures never propagate to the retry
logic. -/
theorem C4_handler_outcome_ignored (fs : FilterSets) (T : Int) (h h2 : Handler)
    (store : String → StoreResult) (e : Event) :
    (processItem fs T h store e).err = (processItem fs T h2 store e).err ∧
    ((store e.key).err = none → (processItem fs T h store e).err = none) := by
  by_cases hs : (store e.key).err = none
  · have key : ∀ hh : Handler, (processItem fs T hh store e).err = none := by
      intro hh
      simp only [processItem, hs]
      split_ifs <;> rfl
    exact ⟨(key h).trans (key h2).symm, fun _ => key h⟩
  · obtain ⟨msg, hm⟩ := Option.ne_none_iff_exists'.mp hs
    exact ⟨by simp [processItem, hm], fun hcontra => absurd hcontra hs⟩

/-- C4 amended witness: even with the always-failing handler, `processItem`
on a forwarded update returns no error. -/
theorem C4_handler_outcome_ignored_witness :
    (processItem fsPodGlobal 0 alwaysFailHandler podStore evUpdA).err = none :=
  (C4_handler_outcome_ignored fsPodGlobal 0 alwaysFailHandler okHandler podStore evUpdA).2 rfl

/-- C5 counterexample: when the store lookup misses (object absent, no
error — `GetByKey` returns `nil, false, nil` and the `exists` flag is
discarded), `processItem` returns `nil`, not a processing error, so nothing
is retried. -/
theorem C5_lookup_miss_counterexample :
    (missStore evUpdA.key).obj = none ∧
    (missStore evUpdA.key).err = none ∧
    (processItem fsPodGlobal 0 okHandler missStore evUpdA).err = none := by
  decide

/-- C5 amended: a lookup miss is not an error — `processItem` proceeds with
the absent object and returns `nil` (the notice is then forgotten, not
retried); only a store lookup *error* is returned as a processing error
(with the source's message), and such errors are what `processNextItem`
retries with `addRateLimited` exactly while `NumRequeues < maxRetries`. -/
theorem C5_lookup_miss_not_error (fs : FilterSets) (T : Int) (h : Handler)
    (store : String → StoreResult) (e : Event) :
    ((store e.key).obj = none → (store e.key).err = none →
      (processItem fs T h store e).err = none) ∧
    (∀ msg, (store e.key).err = some msg →
      (processItem fs T h store e).err =
        some ("Error fetching object with key " ++ e.key ++ " from store: " ++ msg)) ∧
    (∀ n, retryDecision n true = RetryAction.addRateLimited ↔ n < maxRetries) := by
  refine ⟨?_, ?_, ?_⟩
  · intro _ hs
    simp only [processItem, hs]
    split_ifs <;> rfl
  · intro msg hm
    simp [processItem, hm]
  · intro n
    by_cases hlt : n < maxRetries <;> simp [retryDecision, hlt]

/-- C5 amended witness: the miss store yields no error; the erroring store
yields the fetch error message. -/
theorem C5_lookup_miss_not_error_witness :
    (processItem fsPodGlobal 0 okHandler missStore evUpdA).err = none ∧
    (processItem fsPodGlobal 0 okHandler errStore evUpdA).err =
      some "Error fetching object with key default/a from store: boom" := by
  constructor
  · exact (C5_lookup_miss_not_error fsPodGlobal 0 okHandler missStore evUpdA).1 rfl rfl
  · have h1 := (C5_lookup_miss_not_error fsPodGlobal 0 okHandler errStore evUpdA).2.1 "boom" rfl
    exact h1.trans (by decide)

/-- the package-level variable `serverStartTime` (controller.go line 50)
after a sequence of `Run` calls: each `Run` assigns `time.Now().Local()` to
this single shared variable (line 434), so successive starts overwrite it;
`0` stands for the zero `time.Time`. -/
def sharedStartTime (runTimes : List Int) : Int :=
  runTimes.foldl (fun _ t => t) 0

/-- C6 counterexample: subscription A's controller starts at 10, subscription
B's at 20; a pod created at 15 — after A started — is nevertheless suppressed
for A, because A's `processItem` reads the shared `serverStartTime`, which
B's later `Run` overwrote with 20.  Classifying against A's own start time 10
would have forwarded it. -/
theorem C6_shared_start_time_counterexample :
    sharedStartTime [10, 20] = 20 ∧
    (processItem fsPodGlobal (sharedStartTime [10, 20]) okHandler podStore evCreateA).calls = [] ∧
    (processItem fsPodGlobal 10 okHandler podStore evCreateA).calls ≠ [] := by
  decide

/-- C6 amended: all subscriptions share one package-level start timestamp and
every `Run` overwrites it, so its value is the most recent controller start
(last write wins); startup suppression for any subscription is measured
against that shared value, so a Create notice of one subscription can be
suppressed by another subscription's later start (concrete instance: start
times 10 then 20, object created at 15). -/
theorem C6_shared_start_time_last_write_wins :
    (∀ (ts : List Int) (t : Int), sharedStartTime (ts ++ [t]) = t) ∧
    (processItem fsPodGlobal (sharedStartTime [10, 20]) okHandler podStore evCreateA).calls = [] := by
  refine ⟨?_, by decide⟩
  intro ts t
  simp [sharedStartTime]

/-- observable outcome of one controller's `Run` (controller.go 429–446). -/
structure RunResult where
  fatalErrorReported : Bool
  drainLoopStarted : Bool
  processedItems : Nat
  deriving DecidableEq, Repr

/-- `Run` (controller.go 429–446): after starting the informer the controller
blocks in `WaitForCacheSync`; when the wait fails it reports via
`utilruntime.HandleError` and returns before `wait.Until` ever starts the
drain loop (no queue item is processed); when it succeeds the drain loop
starts and processes the queued items until the stop signal.  `pendingItems`
abstracts the items the drain loop would process. -/
def runModel (syncOk : Bool) (pendingItems : Nat) : RunResult :=
  if syncOk then ⟨false, true, pendingItems⟩ else ⟨true, false, 0⟩

/-- `Start` launches one controller `Run` per subscription (controller.go
76–382); each outcome depends only on that subscription's own sync result. -/
def controllerSetRun (syncs : List Bool) (pendingItems : Nat) : List RunResult :=
  syncs.map (fun b => runModel b pendingItems)

/-- C7: a failed cache-sync wait makes `Run` report a fatal error and return
with the drain loop never started and zero items processed; a successful sync
starts the drain loop; and in a set of concurrently started subscriptions the
outcome of each one is `runModel` of its own sync result, unaffected by the
sync results of the subscriptions around it. -/
theorem C7_sync_timeout_isolated :
    (∀ n, runModel false n = ⟨true, false, 0⟩) ∧
    (∀ n, runModel true n = ⟨false, true, n⟩) ∧
    (∀ (pre post : List Bool) (b : Bool) (n : Nat),
      controllerSetRun (pre ++ b :: post) n =
        controllerSetRun pre n ++ runModel b n :: controllerSetRun post n) := by
  refine ⟨fun n => rfl, fun n => rfl, ?_⟩
  intro pre post b n
  simp [controllerSetRun]

/-- one callback delivered to the informer's event handler
(controller.go 388–417); delete inputs carry the object's metadata
namespace, which DeleteFunc copies into the notice. -/
inductive InformerInput where
  | addObj (key : String)
  | updObj (key : String)
  | delObj (key : String) (nspace : String)
  deriving DecidableEq, Repr

/-- the three informer callbacks (controller.go 389–416).  All three mutate
the one `newEvent` variable shared by the closures: AddFunc and UpdateFunc
assign `key`, `eventType` and `resourceType` but never `namespace`, while
DeleteFunc assigns all four fields; the namespace set by an earlier delete
therefore survives into later create/update notices. -/
def informerCallback (resourceType : String) (cur : Event) : InformerInput → Event
  | InformerInput.addObj k =>
      { cur with key := k, eventType := "create", resourceType := resourceType }
  | InformerInput.updObj k =>
      { cur with key := k, eventType := "update", resourceType := resourceType }
  | InformerInput.delObj k ns =>
      ⟨k, "delete", ns, resourceType⟩

/-- the notices enqueued (in order) for a sequence of informer callbacks,
threading the shared `newEvent` variable (initially the zero `Event`) through
the callbacks; `queue.Add` copies the current value. -/
def informerEnqueued (resourceType : String) (inputs : List InformerInput) : List Event :=
  (inputs.foldl
    (fun (acc : List Event × Event) i =>
      let e := informerCallback resourceType acc.2 i
      (acc.1 ++ [e], e))
    ([], ⟨"", "", "", ""⟩)).1

/-- C9 counterexample: an update callback that follows a delete callback
enqueues an update notice whose namespace field is NOT empty — it inherits
`default` from the shared event variable the delete filled in — so the
forwarded envelope carries that stale namespace `default` rather than the
key's first segment `team`. -/
theorem C9_namespace_fallback_counterexample :
    informerEnqueued "pod"
        [InformerInput.delObj "default/a" "default", InformerInput.updObj "team/b"] =
      [⟨"default/a", "delete", "default", "pod"⟩, ⟨"team/b", "update", "default", "pod"⟩] ∧
    (processItem fsPodGlobal 0 okHandler podStore ⟨"team/b", "update", "default", "pod"⟩).calls =
      [(HandlerCall.updated (some podMeta) ⟨"pod", "team/b", "default"⟩, true)] ∧
    firstSegment "team/b" = "team" := by
  decide

/-- filter sets with `persistent volume` in `Global`. -/
def fsPVGlobal : FilterSets := ⟨["persistent volume"], [], [], []⟩

/-- a delete notice for a cluster-scoped persistent volume: the key has no
`/` and the object's metadata namespace is empty. -/
def evDelPV : Event := ⟨"pv1", "delete", "", "persistent volume"⟩

/-- C9 amended: for every dequeued notice whose namespace field is empty, the
envelope of a forwarded update or delete — whether forwarded through the
`global` set or through the matching directional `update`/`delete` set —
carries the prefix of the ObjectKey before the first `/`; in particular for a
cluster-scoped key with no `/` the envelope namespace is the whole key, i.e.
the object's name (concrete persistent-volume instance). -/
theorem C9_namespace_fallback (fs : FilterSets) (T : Int) (h : Handler)
    (store : String → StoreResult) (e : Event)
    (hs : (store e.key).err = none) (hn : e.nspace = "") :
    (e.eventType = "update" →
      e.resourceType ∈ fs.global ∨ e.resourceType ∈ fs.update →
      (processItem fs T h store e).calls =
        [(HandlerCall.updated (store e.key).obj ⟨e.resourceType, e.key, firstSegment e.key⟩,
          h.objectUpdated (store e.key).obj ⟨e.resourceType, e.key, firstSegment e.key⟩)]) ∧
    (e.eventType = "delete" →
      e.resourceType ∈ fs.global ∨ e.resourceType ∈ fs.delete →
      (processItem fs T h store e).calls =
        [(HandlerCall.deleted ⟨e.resourceType, e.key, firstSegment e.key⟩,
          h.objectDeleted ⟨e.resourceType, e.key, firstSegment e.key⟩)]) ∧
    (processItem fsPVGlobal 0 okHandler missStore evDelPV).calls =
      [(HandlerCall.deleted ⟨"persistent volume", "pv1", "pv1"⟩, true)] := by
  refine ⟨?_, ?_, by decide⟩
  · intro hu hmem
    by_cases hg : e.resourceType ∈ fs.global
    · simp [processItem, hs, hu, hg, resolvedNamespace, hn]
    · have hup : e.resourceType ∈ fs.update := hmem.resolve_left hg
      simp [processItem, hs, hu, hg, hup, resolvedNamespace, hn]
  · intro hd hmem
    by_cases hg : e.resourceType ∈ fs.global
    · simp [processItem, hs, hd, hg, resolvedNamespace, hn]
    · have hdl : e.resourceType ∈ fs.delete := hmem.resolve_left hg
      simp [processItem, hs, hd, hg, hdl, resolvedNamespace, hn]

/-- filter sets with `pod` only in the directional `update` set (the spec's
scenario configuration: Global empty, Update = [pod]). -/
def fsPodUpdate : FilterSets := ⟨[], [], ["pod"], []⟩

/-- filter sets with `pod` only in the directional `delete` set. -/
def fsPodDelete : FilterSets := ⟨[], [], [], ["pod"]⟩

/-- a delete notice for key `default/a` whose namespace field is empty. -/
def evDelANoNs : Event := ⟨"default/a", "delete", "", "pod"⟩

/-- C9 amended witness: the update notice for key `default/a` with empty
namespace is forwarded with envelope namespace `default` — the key's first
segment — both when `pod` is in `global` and when it is only in the
directional `update` set; a delete forwarded through the directional
`delete` set gets the same envelope namespace. -/
theorem C9_namespace_fallback_witness :
    (processItem fsPodGlobal 0 okHandler podStore evUpdA).calls =
      [(HandlerCall.updated (some podMeta) ⟨"pod", "default/a", "default"⟩, true)] ∧
    (processItem fsPodUpdate 0 okHandler podStore evUpdA).calls =
      [(HandlerCall.updated (some podMeta) ⟨"pod", "default/a", "default"⟩, true)] ∧
    (processItem fsPodDelete 0 okHandler podStore evDelANoNs).calls =
      [(HandlerCall.deleted ⟨"pod", "default/a", "default"⟩, true)] := by
  refine ⟨?_, ?_, ?_⟩
  · have h1 := (C9_namespace_fallback fsPodGlobal 0 okHandler podStore evUpdA rfl rfl).1
      rfl (Or.inl (by decide))
    exact h1.trans (by decide)
  · have h1 := (C9_namespace_fallback fsPodUpdate 0 okHandler podStore evUpdA rfl rfl).1
      rfl (Or.inr (by decide))
    exact h1.trans (by decide)
  · have h1 := (C9_namespace_fallback fsPodDelete 0 okHandler podStore evDelANoNs rfl rfl).2.1
      rfl (Or.inr (by decide))
    exact h1.trans (by decide)

/-- `config.Resource` (config.go 43–56). -/
structure Resource where
  Deployment : Bool
  ReplicationController : Bool
  ReplicaSet : Bool
  DaemonSet : Bool
  Service : Bool
  Pod : Bool
  Job : Bool
  PersistentVolume : Bool
  Namespace : Bool
  Secret : Bool
  ConfigMap : Bool
  Ingress : Bool
  deriving DecidableEq, Repr

/-- the zero `Resource{}` value compared against in `UnmarshallConfig`
(config.go 214). -/
def Resource.zero : Resource :=
  ⟨false, false, false, false, false, false, false, false, false, false, false, false⟩

/-- the entries `UnmarshallConfig` appends to `Event.Global` in its Resource
branch, in source order (config.go 216–251); note the `"demonset"` literal on
line 217. -/
def appendedGlobal (r : Resource) : List String :=
  (if r.DaemonSet then ["demonset"] else []) ++
  (if r.ReplicaSet then ["replicaset"] else []) ++
  (if r.Namespace then ["namespace"] else []) ++
  (if r.Deployment then ["deployment"] else []) ++
  (if r.Pod then ["pod"] else []) ++
  (if r.ReplicationController then ["replicationcontroller"] else []) ++
  (if r.Service then ["service"] else []) ++
  (if r.Job then ["job"] else []) ++
  (if r.PersistentVolume then ["persistentvolume"] else []) ++
  (if r.Secret then ["secret"] else []) ++
  (if r.ConfigMap then ["configmap"] else []) ++
  (if r.Ingress then ["ingress"] else [])

/-- the `Event.Global` list after `UnmarshallConfig` (config.go 211–260):
when the Resource block is non-zero the per-resource entries are appended to
the existing list; otherwise the list is left unchanged (the else branch only
sets Resource flags from the event lists). -/
def unmarshallConfigGlobal (r : Resource) (g : List String) : List String :=
  if r ≠ Resource.zero then g ++ appendedGlobal r else g

/-- the resource type under which `Start` wires daemonset watchers and hence
under which daemonset notices are classified (controller.go 134). -/
def daemonsetResourceType : String := "daemonset"

/-- none of the entries the Resource branch appends is `"daemonset"` (the
daemonset entry is the misspelt `"demonset"`). -/
theorem daemonset_not_in_appendedGlobal (r : Resource) :
    daemonsetResourceType ∉ appendedGlobal r := by
  simp [appendedGlobal, daemonsetResourceType]

/-- C10: for a config with a non-zero Resource block and `DaemonSet` true,
`UnmarshallConfig` appends `"demonset"` — not `"daemonset"` — to
`Event.Global`; no appended entry equals the controller's daemonset resource
type, so the membership test of a daemonset notice against the appended
global entries never succeeds and such a notice is never forwarded through
them (update case shown, with the directional sets empty as `loadEventConfig`
leaves them for this config shape). -/
theorem C10_demonset_mismatch (r : Resource) (g : List String)
    (hnz : r ≠ Resource.zero) (hds : r.DaemonSet = true) :
    "demonset" ∈ unmarshallConfigGlobal r g ∧
    daemonsetResourceType ∉ appendedGlobal r ∧
    (∀ (T : Int) (h : Handler) (store : String → StoreResult) (e : Event),
      (store e.key).err = none → e.resourceType = daemonsetResourceType →
      e.eventType = "update" →
      (processItem ⟨appendedGlobal r, [], [], []⟩ T h store e).calls = []) := by
  refine ⟨?_, daemonset_not_in_appendedGlobal r, ?_⟩
  · simp [unmarshallConfigGlobal, hnz, appendedGlobal, hds]
  · intro T h store e hs hrt hup
    have hnm : e.resourceType ∉ appendedGlobal r := by
      rw [hrt]
      exact daemonset_not_in_appendedGlobal r
    simp [processItem, hs, hup, hnm]

/-- a Resource block with only `DaemonSet` set. -/
def dsOnly : Resource :=
  ⟨false, false, false, true, false, false, false, false, false, false, false, false⟩

/-- an update notice for a daemonset, as enqueued by the watcher wired with
resource type `daemonset`. -/
def evUpdDaemon : Event := ⟨"default/d", "update", "", "daemonset"⟩

/-- C10 witness: with only `DaemonSet` enabled, `"demonset"` lands in the
global list yet the daemonset update notice is not forwarded through it. -/
theorem C10_demonset_mismatch_witness :
    "demonset" ∈ unmarshallConfigGlobal dsOnly [] ∧
    (processItem ⟨appendedGlobal dsOnly, [], [], []⟩ 0 okHandler podStore evUpdDaemon).calls = [] := by
  have H := C10_demonset_mismatch dsOnly [] (by decide) rfl
  exact ⟨H.1, H.2.2 0 okHandler podStore evUpdDaemon rfl rfl rfl⟩

end Kubewatch
